import Mathlib

/-!
Verification of the MessageBird Go REST client (package `messagebird`).

The development shallowly embeds the core of `client.go`:

* the response dispatcher `Client.request` (status classification,
  decode-then-classify ordering, the two sentinel errors),
* the request builders `createRequest` / `createJSONRequest`
  (headers, form-encoded bodies),
* the per-resource voice methods built on top of the dispatcher
  (`CallFlow`, `Call`, `Leg`, `Recording`, `Transcription`, `Webhook`
  and their list/create variants), including their `Data[0]` indexing,
* Go standard-library `url.Values.Encode` / `url.ParseQuery` at the
  byte level, as used for form bodies.

External collaborators (the HTTP transport, `encoding/json`) are
abstracted: the transport is modelled by handing the dispatcher the
received response directly, and JSON decoding is a parameter
`dec : String → α → Option α` modelling `json.Unmarshal` into an
existing container (`none` = malformed body; partial mutation on a
failed unmarshal is not observable by any property proved here and is
modelled as leaving the container unchanged).
-/

/-- Error taxonomy of the dispatcher, as seen by callers of
`Client.request`.  `transport` stands for an error returned by
`HTTPClient.Do` or by reading the body; `serverUnavailable` is the
sentinel `ErrUnexpectedResponse`; `apiError` is the sentinel
`ErrResponse`; `decodeFailure` is an error returned by
`json.Unmarshal`. -/
inductive ReqErr where
  | transport
  | serverUnavailable
  | apiError
  | decodeFailure
deriving DecidableEq, Repr

/-- An HTTP response as received by the dispatcher: its status code and
its body (a Go string, i.e. raw bytes, here kept abstract as `String`
since the dispatcher only hands it to the JSON decoder). -/
structure Resp where
  status : Nat
  body : String
deriving DecidableEq, Repr

/-- Model of `json.Unmarshal` into a container of type `α`: given the
body and the current container value, return the updated container, or
`none` when the body is malformed for that shape. -/
abbrev Dec (α : Type) := String → α → Option α

/-- Embedding of `Client.request` (client.go lines 156-194) from the
point where the response has been received and its body read.  `v` is
the caller-supplied container (`none` models passing `nil`).  The
result is the container after the call (Go mutates it in place)
together with the returned error (`none` = success).

Control flow, exactly as in the source: status 500 returns
`ErrUnexpectedResponse` before any decode; otherwise, when a container
was supplied the body is decoded into it (a decode failure is returned
as-is); only then is the status classified: 200/201 is success,
anything else is `ErrResponse`. -/
def Client.request {α : Type} (dec : Dec α) (v : Option α) (r : Resp) :
    Option α × Option ReqErr :=
  if r.status = 500 then
    (v, some ReqErr.serverUnavailable)
  else
    match v with
    | none =>
      if r.status = 200 ∨ r.status = 201 then (none, none)
      else (none, some ReqErr.apiError)
    | some c =>
      match dec r.body c with
      | none => (some c, some ReqErr.decodeFailure)
      | some c2 =>
        if r.status = 200 ∨ r.status = 201 then (some c2, none)
        else (some c2, some ReqErr.apiError)

/-- Lines the dispatcher writes to the standard logger (client.go lines
169-171): the body is logged only when `c.DebugLog` is configured. -/
def requestLogOutput (debugConfigured : Bool) (body : String) : List String :=
  if debugConfigured then ["HTTP RESPONSE: " ++ body] else []

/-- Lines the dispatcher writes to standard output (client.go line 172):
an unconditional `fmt.Printf` of the response body, performed on every
dispatch regardless of whether a debug logger is configured. -/
def requestStdout (body : String) : List String :=
  ["HTTP RESPONSE: " ++ body]

/-- All output produced by the dispatcher for a response body: the
(conditional) debug-log line followed by the (unconditional) stdout
line. -/
def requestOutput (debugConfigured : Bool) (body : String) : List String :=
  requestLogOutput debugConfigured body ++ requestStdout body

/-- Result of a resource method: either the Go call panics (the only
panic site in these methods is indexing `Data[0]` on an empty slice),
or it returns a pointer (`none` models returning `nil`) together with
an error value (`none` models a `nil` error). -/
inductive MRes (α : Type) where
  | panics
  | ret (val : Option α) (err : Option ReqErr)
deriving DecidableEq

/-- Model of the Go expression `&list.Data[0]` returned together with
error value `e`: indexing element zero of an empty slice is a run-time
panic. -/
def derefFirst {α : Type} (l : List α) (e : Option ReqErr) : MRes α :=
  match l with
  | [] => MRes.panics
  | d :: _ => MRes.ret (some d) e

/-- A single CallFlow step (recording.go).  Go `map[string]string` is
modelled as an association list. -/
structure Step where
  ID : String
  Action : String
  Options : List (String × String)
deriving DecidableEq

/-- CallFlow resource (call_flow.go).  Go `*time.Time` fields are
modelled as `Option Nat` (a nil pointer is `none`; the time value
itself is abstracted as a nanosecond count). -/
structure CallFlow where
  ID : String
  Title : String
  Steps : List Step
  CreatedAt : Option Nat
  UpdatedAt : Option Nat
deriving DecidableEq

/-- List wrapper for CallFlows (call_flow.go); fields in source order. -/
structure CallFlowList where
  Links : List (String × String)
  Pagination : List (String × Int)
  Data : List CallFlow
deriving DecidableEq

/-- Zero value `CallFlowList` as produced by `&CallFlowList{}`. -/
def CallFlowList.empty : CallFlowList := ⟨[], [], []⟩

/-- Call resource (call.go).  Go `map[string]*string` is modelled as an
association list to optional strings. -/
structure Call where
  ID : String
  NumberID : String
  Status : String
  Source : String
  Destination : String
  CreatedAt : Option Nat
  UpdatedAt : Option Nat
  EndedAt : Option Nat
  Links : List (String × Option String)
deriving DecidableEq

/-- List wrapper for Calls (call.go). -/
structure CallList where
  Data : List Call
  Links : List (String × Option String)
  Pagination : List (String × Int)
deriving DecidableEq

/-- Zero value `CallList` as produced by `&CallList{}`. -/
def CallList.empty : CallList := ⟨[], [], []⟩

/-- Leg resource (transcription.go file block defining Leg).  The Go
`float32` cost is modelled by its 32-bit pattern as a `Nat`; no claim
inspects it. -/
structure Leg where
  ID : String
  CallID : String
  Source : String
  Destination : String
  Status : String
  Direction : String
  Cost : Nat
  Currency : String
  Duration : Int
  CreatedAt : Option Nat
  UpdatedAt : Option Nat
  EndedAt : Option Nat
deriving DecidableEq

/-- List wrapper for Legs. -/
structure LegList where
  Data : List Leg
  Links : List (String × Option String)
  Pagination : List (String × Int)
deriving DecidableEq

/-- Zero value `LegList` as produced by `&LegList{}`. -/
def LegList.empty : LegList := ⟨[], [], []⟩

/-- Recording resource (recording.go). -/
structure Recording where
  ID : String
  Format : String
  LegID : String
  Status : String
  Duration : Int
  CreatedAt : Option Nat
  UpdatedAt : Option Nat
  Links : List (String × Option String)
deriving DecidableEq

/-- List wrapper for Recordings (recording.go). -/
structure RecordingList where
  Data : List Recording
  Links : List (String × Option String)
  Pagination : List (String × Int)
deriving DecidableEq

/-- Zero value `RecordingList` as produced by `&RecordingList{}`. -/
def RecordingList.empty : RecordingList := ⟨[], [], []⟩

/-- Transcription resource (transcription.go). -/
structure Transcription where
  ID : String
  RecordingID : String
  Error : String
  CreatedAt : Option Nat
  UpdatedAt : Option Nat
  Links : List (String × Option String)
deriving DecidableEq

/-- List wrapper for Transcriptions (transcription.go). -/
structure TranscriptionList where
  Data : List Transcription
  Links : List (String × Option String)
  Pagination : List (String × Int)
deriving DecidableEq

/-- Zero value `TranscriptionList` as produced by `&TranscriptionList{}`. -/
def TranscriptionList.empty : TranscriptionList := ⟨[], [], []⟩

/-- Webhook resource (webhook.go). -/
structure Webhook where
  ID : String
  URL : String
  Token : String
  CreatedAt : Option Nat
  UpdatedAt : Option Nat
  Links : List (String × Option String)
deriving DecidableEq

/-- List wrapper for Webhooks (webhook.go). -/
structure WebhookList where
  Data : List Webhook
  Links : List (String × Option String)
  Pagination : List (String × Int)
deriving DecidableEq

/-- Zero value `WebhookList` as produced by `&WebhookList{}`. -/
def WebhookList.empty : WebhookList := ⟨[], [], []⟩

/-- Aliases for the element types, usable inside `namespace Client`
where the method names shadow the type names. -/
abbrev CallFlowTy := CallFlow
abbrev CallTy := Call
abbrev LegTy := Leg
abbrev RecordingTy := Recording
abbrev TranscriptionTy := Transcription
abbrev WebhookTy := Webhook

namespace Client

/-- Embedding of `Client.CallFlow` (client.go lines 565-581) from the
point where the response is received; request construction cannot fail
for these constant paths.  On `ErrResponse` it returns
`&callFlowList.Data[0], err`. -/
def CallFlow (dec : Dec CallFlowList) (r : Resp) : MRes CallFlowTy :=
  let res := Client.request dec (some CallFlowList.empty) r
  let callFlowList := res.1.getD CallFlowList.empty
  match res.2 with
  | none => derefFirst callFlowList.Data none
  | some e =>
    if e = ReqErr.apiError then derefFirst callFlowList.Data (some ReqErr.apiError)
    else MRes.ret none (some e)

/-- Embedding of `Client.CallFlows` (client.go lines 583-599).  On
`ErrResponse` it returns `callFlowList, nil`. -/
def CallFlows (dec : Dec CallFlowList) (r : Resp) : MRes CallFlowList :=
  let res := Client.request dec (some CallFlowList.empty) r
  match res.2 with
  | none => MRes.ret res.1 none
  | some e =>
    if e = ReqErr.apiError then MRes.ret res.1 none
    else MRes.ret none (some e)

/-- Embedding of `Client.NewCallFlow` (client.go lines 601-618).  On
`ErrResponse` it returns `&callFlowList.Data[0], nil`. -/
def NewCallFlow (dec : Dec CallFlowList) (r : Resp) : MRes CallFlowTy :=
  let res := Client.request dec (some CallFlowList.empty) r
  let callFlowList := res.1.getD CallFlowList.empty
  match res.2 with
  | none => derefFirst callFlowList.Data none
  | some e =>
    if e = ReqErr.apiError then derefFirst callFlowList.Data none
    else MRes.ret none (some e)

/-- Embedding of `Client.Call` (client.go lines 620-637).  On
`ErrResponse` it returns `&callList.Data[0], nil`. -/
def Call (dec : Dec CallList) (r : Resp) : MRes CallTy :=
  let res := Client.request dec (some CallList.empty) r
  let callList := res.1.getD CallList.empty
  match res.2 with
  | none => derefFirst callList.Data none
  | some e =>
    if e = ReqErr.apiError then derefFirst callList.Data none
    else MRes.ret none (some e)

/-- Embedding of `Client.Calls` (client.go lines 639-656).  On
`ErrResponse` it returns `callList, nil`. -/
def Calls (dec : Dec CallList) (r : Resp) : MRes CallList :=
  let res := Client.request dec (some CallList.empty) r
  match res.2 with
  | none => MRes.ret res.1 none
  | some e =>
    if e = ReqErr.apiError then MRes.ret res.1 none
    else MRes.ret none (some e)

/-- Embedding of `Client.NewCall` (client.go lines 658-675).  On
`ErrResponse` it returns `&callList.Data[0], err`; on the success path
it returns `&callList.Data[0], err` where `err` is nil. -/
def NewCall (dec : Dec CallList) (r : Resp) : MRes CallTy :=
  let res := Client.request dec (some CallList.empty) r
  let callList := res.1.getD CallList.empty
  match res.2 with
  | none => derefFirst callList.Data none
  | some e =>
    if e = ReqErr.apiError then derefFirst callList.Data (some ReqErr.apiError)
    else MRes.ret none (some e)

/-- Embedding of `Client.Leg` (client.go lines 677-694).  On
`ErrResponse` it returns `&legList.Data[0], nil`. -/
def Leg (dec : Dec LegList) (r : Resp) : MRes LegTy :=
  let res := Client.request dec (some LegList.empty) r
  let legList := res.1.getD LegList.empty
  match res.2 with
  | none => derefFirst legList.Data none
  | some e =>
    if e = ReqErr.apiError then derefFirst legList.Data none
    else MRes.ret none (some e)

/-- Embedding of `Client.Legs` (client.go lines 696-713).  On
`ErrResponse` it returns `legList, nil`. -/
def Legs (dec : Dec LegList) (r : Resp) : MRes LegList :=
  let res := Client.request dec (some LegList.empty) r
  match res.2 with
  | none => MRes.ret res.1 none
  | some e =>
    if e = ReqErr.apiError then MRes.ret res.1 none
    else MRes.ret none (some e)

/-- Embedding of `Client.Recording` (client.go lines 715-733).  On
`ErrResponse` it returns `&recordingList.Data[0], nil`. -/
def Recording (dec : Dec RecordingList) (r : Resp) : MRes RecordingTy :=
  let res := Client.request dec (some RecordingList.empty) r
  let recordingList := res.1.getD RecordingList.empty
  match res.2 with
  | none => derefFirst recordingList.Data none
  | some e =>
    if e = ReqErr.apiError then derefFirst recordingList.Data none
    else MRes.ret none (some e)

/-- Embedding of `Client.Recordings` (client.go lines 735-753).  On
`ErrResponse` it returns `recordingList, nil`. -/
def Recordings (dec : Dec RecordingList) (r : Resp) : MRes RecordingList :=
  let res := Client.request dec (some RecordingList.empty) r
  match res.2 with
  | none => MRes.ret res.1 none
  | some e =>
    if e = ReqErr.apiError then MRes.ret res.1 none
    else MRes.ret none (some e)

/-- Embedding of `Client.Transcription` (client.go lines 755-773).  On
`ErrResponse` it returns `&transcriptionList.Data[0], nil`. -/
def Transcription (dec : Dec TranscriptionList) (r : Resp) : MRes TranscriptionTy :=
  let res := Client.request dec (some TranscriptionList.empty) r
  let transcriptionList := res.1.getD TranscriptionList.empty
  match res.2 with
  | none => derefFirst transcriptionList.Data none
  | some e =>
    if e = ReqErr.apiError then derefFirst transcriptionList.Data none
    else MRes.ret none (some e)

/-- Embedding of `Client.Transcriptions` (client.go lines 775-793).  On
`ErrResponse` it returns `transcriptionList, nil`. -/
def Transcriptions (dec : Dec TranscriptionList) (r : Resp) : MRes TranscriptionList :=
  let res := Client.request dec (some TranscriptionList.empty) r
  match res.2 with
  | none => MRes.ret res.1 none
  | some e =>
    if e = ReqErr.apiError then MRes.ret res.1 none
    else MRes.ret none (some e)

/-- Embedding of `Client.NewTranscriptionRequest` (client.go lines
795-813).  On `ErrResponse` it returns
`&transcriptionList.Data[0], nil`. -/
def NewTranscriptionRequest (dec : Dec TranscriptionList) (r : Resp) :
    MRes TranscriptionTy :=
  let res := Client.request dec (some TranscriptionList.empty) r
  let transcriptionList := res.1.getD TranscriptionList.empty
  match res.2 with
  | none => derefFirst transcriptionList.Data none
  | some e =>
    if e = ReqErr.apiError then derefFirst transcriptionList.Data none
    else MRes.ret none (some e)

/-- Embedding of `Client.Webhook` (client.go lines 815-831).  On
`ErrResponse` it returns `&webhookList.Data[0], err`. -/
def Webhook (dec : Dec WebhookList) (r : Resp) : MRes WebhookTy :=
  let res := Client.request dec (some WebhookList.empty) r
  let webhookList := res.1.getD WebhookList.empty
  match res.2 with
  | none => derefFirst webhookList.Data none
  | some e =>
    if e = ReqErr.apiError then derefFirst webhookList.Data (some ReqErr.apiError)
    else MRes.ret none (some e)

/-- Embedding of `Client.Webhooks` (client.go lines 833-849).  On
`ErrResponse` it returns `webhookList, err`. -/
def Webhooks (dec : Dec WebhookList) (r : Resp) : MRes WebhookList :=
  let res := Client.request dec (some WebhookList.empty) r
  match res.2 with
  | none => MRes.ret res.1 none
  | some e =>
    if e = ReqErr.apiError then MRes.ret res.1 (some ReqErr.apiError)
    else MRes.ret none (some e)

/-- Embedding of `Client.NewWebhook` (client.go lines 851-867).  On
`ErrResponse` it returns `&webhookList.Data[0], err`. -/
def NewWebhook (dec : Dec WebhookList) (r : Resp) : MRes WebhookTy :=
  let res := Client.request dec (some WebhookList.empty) r
  let webhookList := res.1.getD WebhookList.empty
  match res.2 with
  | none => derefFirst webhookList.Data none
  | some e =>
    if e = ReqErr.apiError then derefFirst webhookList.Data (some ReqErr.apiError)
    else MRes.ret none (some e)

end Client

/-- ClientVersion constant (client.go line 27). -/
def ClientVersion : String := "3.0.0"

/-- REST endpoint constant (client.go line 29). -/
def RestEndpoint : String := "https://rest.messagebird.com"

/-- Voice endpoint constant (client.go line 31). -/
def VoiceEndpoint : String := "https://voice.messagebird.com"

/-- Webhook resource path constant (client.go line 60). -/
def WebhookPath : String := "webhooks"

/-- HTTP method constant `Get` (client.go line 65). -/
def Get : String := "GET"

/-- HTTP method constant `Post` (client.go line 67). -/
def Post : String := "POST"

/-- HTTP method constant `Delete` (client.go line 69); its value in the
source is the mixed-case string "Delete". -/
def Delete : String := "Delete"

/-- A Go string at the byte level (Go strings are byte sequences; every
element is below 256 in any value originating from a Go string). -/
abbrev ByteStr := List Nat

/-- Model of `url.Values`: an association list from keys to their value
lists.  Go's `url.Values` is a map with unique keys and no inherent
order; `Encode` imposes key order by sorting. -/
abbrev Values := List (ByteStr × List ByteStr)

/-- Bytes left unescaped by Go's `url.QueryEscape` (its `shouldEscape`
with mode `encodeQueryComponent`): ASCII letters, digits, and the four
marks dash, underscore, dot, tilde. -/
def isUnreservedByte (c : Nat) : Bool :=
  (65 ≤ c && c ≤ 90) || (97 ≤ c && c ≤ 122) || (48 ≤ c && c ≤ 57) ||
    c == 45 || c == 95 || c == 46 || c == 126

/-- Upper-case hexadecimal digit of a value below 16, as a byte
(Go escapes with "0123456789ABCDEF"). -/
def hexDigitUpper (n : Nat) : Nat := if n < 10 then 48 + n else 55 + n

/-- Escape of a single byte by `url.QueryEscape`: unreserved bytes are
kept, a space becomes a plus sign, and every other byte becomes a
percent sign followed by two upper-case hex digits. -/
def escByte (c : Nat) : List Nat :=
  if isUnreservedByte c then [c]
  else if c = 32 then [43]
  else [37, hexDigitUpper (c / 16), hexDigitUpper (c % 16)]

/-- Model of Go `url.QueryEscape` over the bytes of a string. -/
def queryEscape (s : ByteStr) : ByteStr := s.flatMap escByte

/-- Hex digit value accepted by Go's `unhex`: digits, lower-case and
upper-case letters. -/
def hexVal (c : Nat) : Option Nat :=
  if 48 ≤ c ∧ c ≤ 57 then some (c - 48)
  else if 97 ≤ c ∧ c ≤ 102 then some (c - 87)
  else if 65 ≤ c ∧ c ≤ 70 then some (c - 55)
  else none

/-- Model of Go `url.QueryUnescape`: a percent sign must be followed by
two hex digits and yields that byte, a plus sign yields a space, every
other byte is kept; malformed input is an error. -/
def queryUnescape : ByteStr → Option ByteStr
  | [] => some []
  | c :: rest =>
    if c = 37 then
      match rest with
      | a :: b :: rest2 =>
        match hexVal a, hexVal b with
        | some x, some y => (queryUnescape rest2).map (fun t => (16 * x + y) :: t)
        | _, _ => none
      | _ => none
    else if c = 43 then (queryUnescape rest).map (fun t => 32 :: t)
    else (queryUnescape rest).map (fun t => c :: t)

/-- Model of Go `strings.Cut` on a single separator byte: the part
before the first occurrence and the part after it (the whole string and
an empty remainder when the separator does not occur). -/
def cutByte (sep : Nat) : ByteStr → ByteStr × ByteStr
  | [] => ([], [])
  | c :: rest =>
    if c = sep then ([], rest)
    else
      let p := cutByte sep rest
      (c :: p.1, p.2)

/-- Model of Go `url.ParseQuery`, flattened to the list of key/value
pairs in body order (Go then groups these pairs into a map, which
preserves exactly the same multiset of pairs).  Each ampersand-separated
segment is cut at its first equals sign and both halves are unescaped;
empty segments are skipped.  A segment containing a semicolon, or a
failed unescape, is an error: Go records the error and skips the
segment while this model returns `none`; the two agree on every input
free of those conditions, which includes every encoder output. -/
def parseQuery : ByteStr → Option (List (ByteStr × ByteStr))
  | [] => some []
  | c :: q =>
    let seg := cutByte 38 (c :: q)
    let tail := parseQuery seg.2
    if 59 ∈ seg.1 then none
    else if seg.1 = [] then tail
    else
      let kv := cutByte 61 seg.1
      match queryUnescape kv.1, queryUnescape kv.2 with
      | some k, some v => tail.map (fun t => (k, v) :: t)
      | _, _ => none
termination_by q => q.length
decreasing_by
  have hle : ∀ (sep : Nat) (s : ByteStr), ((cutByte sep s).2).length ≤ s.length := by
    intro sep s
    induction s with
    | nil => simp [cutByte]
    | cons a as ih =>
      by_cases ha : a = sep
      · simp [cutByte, ha]
      · simp [cutByte, ha]
        omega
  have hlt : ∀ (sep x : Nat) (xs : ByteStr),
      ((cutByte sep (x :: xs)).2).length < (x :: xs).length := by
    intro sep x xs
    by_cases hc : x = sep
    · simp [cutByte, hc]
    · have := hle sep xs
      simp [cutByte, hc]
      omega
  exact hlt 38 _ _

/-- Concatenation of encoded key=value units with ampersand separators,
as produced by the write loop of `url.Values.Encode` (which writes a
separator whenever the buffer is non-empty, i.e. between consecutive
units). -/
def joinAmp : List ByteStr → ByteStr
  | [] => []
  | [s] => s
  | s :: ss => s ++ 38 :: joinAmp ss

/-- A single key=value unit of the encoded body. -/
def encodePair (k v : ByteStr) : ByteStr := queryEscape k ++ 61 :: queryEscape v

/-- The key/value pairs of a `Values` in iteration order: for each key,
one pair per value. -/
def flatPairs (vals : Values) : List (ByteStr × ByteStr) :=
  vals.flatMap (fun kv => kv.2.map (fun v => (kv.1, v)))

/-- Lexicographic byte-string order, as used by `sort.Strings` on the
keys in `url.Values.Encode`. -/
def bytesLe : ByteStr → ByteStr → Bool
  | [], _ => true
  | _ :: _, [] => false
  | a :: as, b :: bs => if a < b then true else if b < a then false else bytesLe as bs

/-- The association list with its keys sorted, modelling the sorted key
iteration of `url.Values.Encode`. -/
def sortValues (vals : Values) : Values :=
  vals.mergeSort (fun x y => bytesLe x.1 y.1)

/-- Model of `url.Values.Encode` (called by `createRequest` for form
bodies): iterate the keys in sorted order, and for each key write one
`escapedKey=escapedValue` unit per value, separated by ampersands. -/
def encodeValues (vals : Values) : ByteStr :=
  joinAmp ((flatPairs (sortValues vals)).map (fun kv => encodePair kv.1 kv.2))

/-- Every byte is below 256 — automatically true of a value originating
from a Go string, stated explicitly for the `List Nat` model. -/
def bytesOk (s : ByteStr) : Bool := s.all (· < 256)

/-- Every byte of every key and value is below 256. -/
def valsOk (vals : Values) : Bool :=
  vals.all (fun kv => bytesOk kv.1 && kv.2.all bytesOk)

/-- An outbound HTTP request as built by the request builders: method,
target URL, optional body, and headers in insertion order. -/
structure HttpRequest where
  method : String
  url : String
  body : Option ByteStr
  headers : List (String × String)
deriving DecidableEq

/-- The User-Agent value (client.go lines 127 and 151); the Go runtime
version is a parameter. -/
def userAgent (goVersion : String) : String :=
  "MessageBird/ApiClient/" ++ ClientVersion ++ " Go/" ++ goVersion

/-- Embedding of `Client.createRequest` (client.go lines 92-130).
`url.Parse` is external; the target URL is modelled as the joined
string `endpoint ++ "/" ++ path` (no claim concerns URL normalization
or the parse-failure path).  With form parameters the body is
`params.Encode()` and Content-Type is set before the three common
headers are added; with no parameters there is no body and no
Content-Type.  The debug request log is a side effect no claim
concerns. -/
def createRequest (accessKey goVersion method endpoint path : String)
    (params : Option Values) : HttpRequest :=
  let uri := endpoint ++ "/" ++ path
  match params with
  | some vals =>
    ⟨method, uri, some (encodeValues vals),
      [("Content-Type", "application/x-www-form-urlencoded"),
       ("Accept", "application/json"),
       ("Authorization", "AccessKey " ++ accessKey),
       ("User-Agent", userAgent goVersion)]⟩
  | none =>
    ⟨method, uri, none,
      [("Accept", "application/json"),
       ("Authorization", "AccessKey " ++ accessKey),
       ("User-Agent", userAgent goVersion)]⟩

/-- Embedding of `Client.createJSONRequest` (client.go lines 132-154).
`json.Marshal` is external; its output bytes are the parameter
`jsonEncoded`.  Content-Type is application/json, then the three common
headers. -/
def createJSONRequest (accessKey goVersion method endpoint path : String)
    (jsonEncoded : ByteStr) : HttpRequest :=
  ⟨method, endpoint ++ "/" ++ path, some jsonEncoded,
    [("Content-Type", "application/json"),
     ("Accept", "application/json"),
     ("Authorization", "AccessKey " ++ accessKey),
     ("User-Agent", userAgent goVersion)]⟩

/-- First header value for a name, as the server would see it. -/
def getHeader (r : HttpRequest) (name : String) : Option String :=
  (r.headers.find? (fun h => h.1 == name)).map (fun h => h.2)

/-- The request built by `Client.DeleteWebhook` (client.go lines
869-880): `createRequest(Delete, VoiceEndpoint, WebhookPath + "/" + id,
nil)`. -/
def deleteWebhookRequest (accessKey goVersion id : String) : HttpRequest :=
  createRequest accessKey goVersion Delete VoiceEndpoint (WebhookPath ++ "/" ++ id) none

/-- Concrete Call value used to evaluate the embedding on concrete
inputs. -/
def exCall : Call := ⟨"call-1", "", "ended", "", "", none, none, none, []⟩

/-- Concrete one-element CallList. -/
def exCallList : CallList := ⟨[exCall], [], []⟩

/-- Concrete decoder that always succeeds with `exCallList`, modelling a
response body carrying a one-element data array. -/
def exCallDec : Dec CallList := fun _ _ => some exCallList

/-- Concrete decoder whose decoded list wrapper has an empty `Data`
slice, modelling a response body whose data array is empty. -/
def exEmptyCallDec : Dec CallList := fun _ _ => some CallList.empty

/-- C2: for every dispatch of a response whose status is not 500, with a
supplied container, the body is decoded into the container before the
status is classified; hence for a non-500, non-200/201 status and a
well-formed body the dispatcher returns the API-error sentinel and the
container holds the decoded value. -/
theorem dispatch_decode_then_classify {α : Type} (dec : Dec α) (c c2 : α)
    (r : Resp) (h500 : r.status ≠ 500) (hdec : dec r.body c = some c2)
    (h200 : r.status ≠ 200) (h201 : r.status ≠ 201) :
    Client.request dec (some c) r = (some c2, some ReqErr.apiError) := by
  simp [Client.request, h500, hdec, h200, h201]

theorem dispatch_decode_then_classify_witness :
    (404 ≠ 500 ∧ 404 ≠ 200 ∧ 404 ≠ 201) ∧
      Client.request (fun _ n => some (n + 1)) (some 7) ⟨404, "x"⟩ =
        (some 8, some ReqErr.apiError) :=
  ⟨by decide,
    dispatch_decode_then_classify (fun _ n => some (n + 1)) 7 8 ⟨404, "x"⟩
      (by decide) rfl (by decide) (by decide)⟩

/-- C3: for every dispatch of a response with status exactly 500, the
dispatcher returns the server-unavailable sentinel, no decode is
attempted (the result does not depend on the decoder or on the body),
and the container is returned exactly as supplied. -/
theorem dispatch_500_leaves_container {α : Type} (dec : Dec α)
    (v : Option α) (b : String) :
    Client.request dec v ⟨500, b⟩ = (v, some ReqErr.serverUnavailable) := by
  simp [Client.request]

/-- C4: for every dispatch of a response with status 200 or 201 whose
body decodes successfully into the supplied container, the dispatcher
returns success (no error) and the container holds the decoded value. -/
theorem dispatch_success_decodes {α : Type} (dec : Dec α) (c c2 : α)
    (r : Resp) (hst : r.status = 200 ∨ r.status = 201)
    (hdec : dec r.body c = some c2) :
    Client.request dec (some c) r = (some c2, none) := by
  have h500 : r.status ≠ 500 := by rcases hst with h | h <;> omega
  simp [Client.request, h500, hdec, hst]

theorem dispatch_success_decodes_witness :
    ((200 = 200 ∨ 200 = 201) : Prop) ∧
      Client.request (fun _ n => some (n + 1)) (some 7) ⟨200, "x"⟩ =
        (some 8, none) :=
  ⟨by decide,
    dispatch_success_decodes (fun _ n => some (n + 1)) 7 8 ⟨200, "x"⟩
      (by decide) rfl⟩

/-- C10: for every dispatch of a response with a supplied container, a
non-500 status, and a body the decoder rejects, the dispatcher returns
the decode failure itself — a value distinct from the transport,
server-unavailable and API-error sentinels — and the later status
classification does not replace it (e.g. at status 404 the decode error
is returned, not the API-error sentinel). -/
theorem dispatch_decode_failure_not_masked {α : Type} (dec : Dec α) (c : α)
    (r : Resp) (h500 : r.status ≠ 500) (hdec : dec r.body c = none) :
    Client.request dec (some c) r = (some c, some ReqErr.decodeFailure) ∧
      ReqErr.decodeFailure ≠ ReqErr.transport ∧
      ReqErr.decodeFailure ≠ ReqErr.serverUnavailable ∧
      ReqErr.decodeFailure ≠ ReqErr.apiError := by
  refine ⟨?_, by decide, by decide, by decide⟩
  simp [Client.request, h500, hdec]

theorem dispatch_decode_failure_not_masked_witness :
    (404 ≠ 500) ∧
      Client.request (fun _ (_ : Nat) => none) (some 7) ⟨404, "not json"⟩ =
        (some 7, some ReqErr.decodeFailure) :=
  ⟨by decide,
    (dispatch_decode_failure_not_masked (fun _ (_ : Nat) => none) 7
      ⟨404, "not json"⟩ (by decide) rfl).1⟩

/-- C7: the dispatcher prints the response body to standard output on
every dispatch, via an unconditional print placed beside the guarded
debug-log call; in particular a dispatch with no debug logger
configured still produces output containing the body, contradicting the
claim that no output is produced in that case. -/
theorem dispatch_prints_body_without_debug :
    requestOutput false "secret-body" = ["HTTP RESPONSE: secret-body"] ∧
      requestOutput false "secret-body" ≠ [] ∧
      requestLogOutput false "secret-body" = [] := by
  refine ⟨rfl, by decide, rfl⟩

/-- Helper: with a supplied container, a 200/201 status and a
successful decode, the dispatcher returns the decoded container and no
error. -/
theorem req_ok {α : Type} (dec : Dec α) (c l : α) (r : Resp)
    (hst : r.status = 200 ∨ r.status = 201) (hdec : dec r.body c = some l) :
    Client.request dec (some c) r = (some l, none) := by
  have h500 : r.status ≠ 500 := by rcases hst with h | h <;> omega
  simp [Client.request, h500, hdec, hst]

/-- Helper: with a supplied container, a non-500, non-200/201 status
and a successful decode, the dispatcher returns the decoded container
and the API-error sentinel. -/
theorem req_apiError {α : Type} (dec : Dec α) (c l : α) (r : Resp)
    (h500 : r.status ≠ 500) (h200 : r.status ≠ 200) (h201 : r.status ≠ 201)
    (hdec : dec r.body c = some l) :
    Client.request dec (some c) r = (some l, some ReqErr.apiError) := by
  simp [Client.request, h500, hdec, h200, h201]

/-- C1 counterexample: at a 404 response whose body decodes into a
one-element call list, the dispatcher returns the API-error sentinel,
yet `Client.Call` returns the decoded element with a nil error — the
error is swallowed, refuting the claim that no resource method swallows
it. -/
theorem call_swallows_api_error_counterexample :
    Client.request exCallDec (some CallList.empty) ⟨404, "b"⟩ =
      (some exCallList, some ReqErr.apiError) ∧
    Client.Call exCallDec ⟨404, "b"⟩ = MRes.ret (some exCall) none := by
  constructor <;> rfl

/-- C1 (amended): when the dispatcher classifies a non-500,
non-200/201 response with a well-formed body and returns the API-error
sentinel, the voice resource methods CallFlow, NewCall, Webhook,
Webhooks and NewWebhook return that error synchronously to their
caller, while NewCallFlow, Call, CallFlows, Calls, Leg, Legs,
Recording, Recordings, Transcription, Transcriptions and
NewTranscriptionRequest swallow it and return a nil error alongside the
decoded container. -/
theorem voice_error_propagation_classified :
    ∀ (r : Resp), r.status ≠ 500 → r.status ≠ 200 → r.status ≠ 201 →
      (∀ (dec : Dec CallFlowList) (l : CallFlowList) (d : CallFlow)
          (ds : List CallFlow),
        dec r.body CallFlowList.empty = some l → l.Data = d :: ds →
          Client.CallFlow dec r = MRes.ret (some d) (some ReqErr.apiError) ∧
          Client.NewCallFlow dec r = MRes.ret (some d) none ∧
          Client.CallFlows dec r = MRes.ret (some l) none) ∧
      (∀ (dec : Dec CallList) (l : CallList) (d : Call) (ds : List Call),
        dec r.body CallList.empty = some l → l.Data = d :: ds →
          Client.Call dec r = MRes.ret (some d) none ∧
          Client.NewCall dec r = MRes.ret (some d) (some ReqErr.apiError) ∧
          Client.Calls dec r = MRes.ret (some l) none) ∧
      (∀ (dec : Dec LegList) (l : LegList) (d : Leg) (ds : List Leg),
        dec r.body LegList.empty = some l → l.Data = d :: ds →
          Client.Leg dec r = MRes.ret (some d) none ∧
          Client.Legs dec r = MRes.ret (some l) none) ∧
      (∀ (dec : Dec RecordingList) (l : RecordingList) (d : Recording)
          (ds : List Recording),
        dec r.body RecordingList.empty = some l → l.Data = d :: ds →
          Client.Recording dec r = MRes.ret (some d) none ∧
          Client.Recordings dec r = MRes.ret (some l) none) ∧
      (∀ (dec : Dec TranscriptionList) (l : TranscriptionList)
          (d : Transcription) (ds : List Transcription),
        dec r.body TranscriptionList.empty = some l → l.Data = d :: ds →
          Client.Transcription dec r = MRes.ret (some d) none ∧
          Client.Transcriptions dec r = MRes.ret (some l) none ∧
          Client.NewTranscriptionRequest dec r = MRes.ret (some d) none) ∧
      (∀ (dec : Dec WebhookList) (l : WebhookList) (d : Webhook)
          (ds : List Webhook),
        dec r.body WebhookList.empty = some l → l.Data = d :: ds →
          Client.Webhook dec r = MRes.ret (some d) (some ReqErr.apiError) ∧
          Client.Webhooks dec r = MRes.ret (some l) (some ReqErr.apiError) ∧
          Client.NewWebhook dec r = MRes.ret (some d) (some ReqErr.apiError)) := by
  intro r h500 h200 h201
  refine ⟨?_, ?_, ?_, ?_, ?_, ?_⟩ <;> intro dec l d ds hdec hd <;>
    have hreq := req_apiError dec _ l r h500 h200 h201 hdec
  · exact ⟨by simp [Client.CallFlow, hreq, derefFirst, hd],
      by simp [Client.NewCallFlow, hreq, derefFirst, hd],
      by simp [Client.CallFlows, hreq]⟩
  · exact ⟨by simp [Client.Call, hreq, derefFirst, hd],
      by simp [Client.NewCall, hreq, derefFirst, hd],
      by simp [Client.Calls, hreq]⟩
  · exact ⟨by simp [Client.Leg, hreq, derefFirst, hd],
      by simp [Client.Legs, hreq]⟩
  · exact ⟨by simp [Client.Recording, hreq, derefFirst, hd],
      by simp [Client.Recordings, hreq]⟩
  · exact ⟨by simp [Client.Transcription, hreq, derefFirst, hd],
      by simp [Client.Transcriptions, hreq],
      by simp [Client.NewTranscriptionRequest, hreq, derefFirst, hd]⟩
  · exact ⟨by simp [Client.Webhook, hreq, derefFirst, hd],
      by simp [Client.Webhooks, hreq],
      by simp [Client.NewWebhook, hreq, derefFirst, hd]⟩

theorem voice_error_propagation_classified_witness :
    ((404 : Nat) ≠ 500 ∧ (404 : Nat) ≠ 200 ∧ (404 : Nat) ≠ 201) ∧
      Client.NewCall exCallDec ⟨404, "b"⟩ =
        MRes.ret (some exCall) (some ReqErr.apiError) ∧
      Client.Call exCallDec ⟨404, "b"⟩ = MRes.ret (some exCall) none :=
  have h := voice_error_propagation_classified ⟨404, "b"⟩ (by decide)
    (by decide) (by decide)
  ⟨⟨by decide, by decide, by decide⟩,
    (h.2.1 exCallDec exCallList exCall [] rfl rfl).2.1,
    (h.2.1 exCallDec exCallList exCall [] rfl rfl).1⟩

/-- C5: every single-resource voice method returns the result of the
unguarded `Data[0]` access on the decoded list wrapper (modelled by
`derefFirst`), and that access panics exactly when the decoded data
list is empty, returning the element at index zero otherwise. -/
theorem single_resource_index_zero :
    ∀ (r : Resp), r.status ≠ 500 →
      (∀ (β : Type) (L : List β) (e : Option ReqErr),
        (derefFirst L e = MRes.panics ↔ L = []) ∧
        (∀ d ds, L = d :: ds → derefFirst L e = MRes.ret (some d) e)) ∧
      (∀ (dec : Dec CallFlowList) (l : CallFlowList),
        dec r.body CallFlowList.empty = some l →
          (∃ e, Client.CallFlow dec r = derefFirst l.Data e) ∧
          (∃ e, Client.NewCallFlow dec r = derefFirst l.Data e)) ∧
      (∀ (dec : Dec CallList) (l : CallList),
        dec r.body CallList.empty = some l →
          (∃ e, Client.Call dec r = derefFirst l.Data e) ∧
          (∃ e, Client.NewCall dec r = derefFirst l.Data e)) ∧
      (∀ (dec : Dec LegList) (l : LegList),
        dec r.body LegList.empty = some l →
          ∃ e, Client.Leg dec r = derefFirst l.Data e) ∧
      (∀ (dec : Dec RecordingList) (l : RecordingList),
        dec r.body RecordingList.empty = some l →
          ∃ e, Client.Recording dec r = derefFirst l.Data e) ∧
      (∀ (dec : Dec TranscriptionList) (l : TranscriptionList),
        dec r.body TranscriptionList.empty = some l →
          (∃ e, Client.Transcription dec r = derefFirst l.Data e) ∧
          (∃ e, Client.NewTranscriptionRequest dec r = derefFirst l.Data e)) ∧
      (∀ (dec : Dec WebhookList) (l : WebhookList),
        dec r.body WebhookList.empty = some l →
          (∃ e, Client.Webhook dec r = derefFirst l.Data e) ∧
          (∃ e, Client.NewWebhook dec r = derefFirst l.Data e)) := by
  intro r h500
  have hderef : ∀ (β : Type) (L : List β) (e : Option ReqErr),
      (derefFirst L e = MRes.panics ↔ L = []) ∧
      (∀ d ds, L = d :: ds → derefFirst L e = MRes.ret (some d) e) := by
    intro β L e
    constructor
    · cases L <;> simp [derefFirst]
    · intro d ds hd
      simp [derefFirst, hd]
  refine ⟨hderef, ?_, ?_, ?_, ?_, ?_, ?_⟩ <;> intro dec l hdec <;>
    by_cases hst : r.status = 200 ∨ r.status = 201
  · have hreq := req_ok dec _ l r hst hdec
    exact ⟨⟨none, by simp [Client.CallFlow, hreq]⟩,
      ⟨none, by simp [Client.NewCallFlow, hreq]⟩⟩
  · push_neg at hst
    have hreq := req_apiError dec _ l r h500 hst.1 hst.2 hdec
    exact ⟨⟨some ReqErr.apiError, by simp [Client.CallFlow, hreq]⟩,
      ⟨none, by simp [Client.NewCallFlow, hreq]⟩⟩
  · have hreq := req_ok dec _ l r hst hdec
    exact ⟨⟨none, by simp [Client.Call, hreq]⟩,
      ⟨none, by simp [Client.NewCall, hreq]⟩⟩
  · push_neg at hst
    have hreq := req_apiError dec _ l r h500 hst.1 hst.2 hdec
    exact ⟨⟨none, by simp [Client.Call, hreq]⟩,
      ⟨some ReqErr.apiError, by simp [Client.NewCall, hreq]⟩⟩
  · have hreq := req_ok dec _ l r hst hdec
    exact ⟨none, by simp [Client.Leg, hreq]⟩
  · push_neg at hst
    have hreq := req_apiError dec _ l r h500 hst.1 hst.2 hdec
    exact ⟨none, by simp [Client.Leg, hreq]⟩
  · have hreq := req_ok dec _ l r hst hdec
    exact ⟨none, by simp [Client.Recording, hreq]⟩
  · push_neg at hst
    have hreq := req_apiError dec _ l r h500 hst.1 hst.2 hdec
    exact ⟨none, by simp [Client.Recording, hreq]⟩
  · have hreq := req_ok dec _ l r hst hdec
    exact ⟨⟨none, by simp [Client.Transcription, hreq]⟩,
      ⟨none, by simp [Client.NewTranscriptionRequest, hreq]⟩⟩
  · push_neg at hst
    have hreq := req_apiError dec _ l r h500 hst.1 hst.2 hdec
    exact ⟨⟨none, by simp [Client.Transcription, hreq]⟩,
      ⟨none, by simp [Client.NewTranscriptionRequest, hreq]⟩⟩
  · have hreq := req_ok dec _ l r hst hdec
    exact ⟨⟨none, by simp [Client.Webhook, hreq]⟩,
      ⟨none, by simp [Client.NewWebhook, hreq]⟩⟩
  · push_neg at hst
    have hreq := req_apiError dec _ l r h500 hst.1 hst.2 hdec
    exact ⟨⟨some ReqErr.apiError, by simp [Client.Webhook, hreq]⟩,
      ⟨some ReqErr.apiError, by simp [Client.NewWebhook, hreq]⟩⟩

theorem single_resource_index_zero_witness :
    ((404 : Nat) ≠ 500) ∧ Client.Call exEmptyCallDec ⟨404, "b"⟩ = MRes.panics := by
  have h := single_resource_index_zero ⟨404, "b"⟩ (by decide)
  obtain ⟨e, he⟩ := (h.2.2.1 exEmptyCallDec CallList.empty rfl).1
  exact ⟨by decide, he.trans rfl⟩

/-- C9: every request produced by the builders carries
Accept: application/json, Authorization: AccessKey followed by the
access key, and a User-Agent header; Content-Type is
application/x-www-form-urlencoded when a form-parameter collection is
supplied, application/json when a structured payload is supplied, and
absent when no body is supplied (in which case the request also has no
body). -/
theorem builder_headers (accessKey goVersion method endpoint path : String) :
    (∀ vals : Values,
      getHeader (createRequest accessKey goVersion method endpoint path
        (some vals)) "Accept" = some "application/json" ∧
      getHeader (createRequest accessKey goVersion method endpoint path
        (some vals)) "Authorization" = some ("AccessKey " ++ accessKey) ∧
      getHeader (createRequest accessKey goVersion method endpoint path
        (some vals)) "User-Agent" = some (userAgent goVersion) ∧
      getHeader (createRequest accessKey goVersion method endpoint path
        (some vals)) "Content-Type" =
          some "application/x-www-form-urlencoded" ∧
      (createRequest accessKey goVersion method endpoint path
        (some vals)).body = some (encodeValues vals)) ∧
    (getHeader (createRequest accessKey goVersion method endpoint path none)
        "Accept" = some "application/json" ∧
      getHeader (createRequest accessKey goVersion method endpoint path none)
        "Authorization" = some ("AccessKey " ++ accessKey) ∧
      getHeader (createRequest accessKey goVersion method endpoint path none)
        "User-Agent" = some (userAgent goVersion) ∧
      getHeader (createRequest accessKey goVersion method endpoint path none)
        "Content-Type" = none ∧
      (createRequest accessKey goVersion method endpoint path none).body =
        none) ∧
    (∀ jsonEncoded : ByteStr,
      getHeader (createJSONRequest accessKey goVersion method endpoint path
        jsonEncoded) "Accept" = some "application/json" ∧
      getHeader (createJSONRequest accessKey goVersion method endpoint path
        jsonEncoded) "Authorization" = some ("AccessKey " ++ accessKey) ∧
      getHeader (createJSONRequest accessKey goVersion method endpoint path
        jsonEncoded) "User-Agent" = some (userAgent goVersion) ∧
      getHeader (createJSONRequest accessKey goVersion method endpoint path
        jsonEncoded) "Content-Type" = some "application/json") := by
  refine ⟨fun vals => ⟨rfl, rfl, rfl, rfl, rfl⟩,
    ⟨rfl, rfl, rfl, rfl, rfl⟩,
    fun jsonEncoded => ⟨rfl, rfl, rfl, rfl⟩⟩

/-- C6: the request built by `DeleteWebhook` carries the method
constant `Delete`, whose value in the source is the mixed-case string
"Delete" and not the claimed upper-case HTTP method token "DELETE"
(evaluated here at a concrete webhook id). -/
theorem deleteWebhook_method_mixed_case :
    (deleteWebhookRequest "test-key" "go1.8" "wh-1").method = "Delete" ∧
      Delete = "Delete" ∧ Delete ≠ "DELETE" := by
  exact ⟨rfl, rfl, by decide⟩

/-- Helper: hex digits round-trip for values below 16. -/
theorem hexVal_hexDigitUpper : ∀ n < 16, hexVal (hexDigitUpper n) = some n := by
  decide

/-- Helper: an unreserved byte is none of percent, plus, ampersand,
equals, semicolon. -/
theorem isUnreservedByte_ne (c : Nat) (h : isUnreservedByte c = true) :
    c ≠ 37 ∧ c ≠ 43 ∧ c ≠ 38 ∧ c ≠ 61 ∧ c ≠ 59 := by
  simp [isUnreservedByte] at h
  omega

/-- Helper: unescaping a byte that is neither a percent nor a plus sign
keeps it. -/
theorem queryUnescape_cons_plain (c : Nat) (rest : ByteStr) (h37 : c ≠ 37)
    (h43 : c ≠ 43) :
    queryUnescape (c :: rest) = (queryUnescape rest).map (fun t => c :: t) := by
  rw [queryUnescape.eq_def]
  simp [h37, h43]

/-- Helper: unescaping a plus sign yields a space. -/
theorem queryUnescape_cons_plus (rest : ByteStr) :
    queryUnescape (43 :: rest) = (queryUnescape rest).map (fun t => 32 :: t) := by
  rw [queryUnescape.eq_def]
  simp

/-- Helper: unescaping a percent sign followed by two hex digits yields
the encoded byte. -/
theorem queryUnescape_cons_hex (a b x y : Nat) (rest : ByteStr)
    (ha : hexVal a = some x) (hb : hexVal b = some y) :
    queryUnescape (37 :: a :: b :: rest) =
      (queryUnescape rest).map (fun t => (16 * x + y) :: t) := by
  rw [queryUnescape.eq_def]
  simp [ha, hb]

/-- Helper: unescaping undoes the escape of one byte, in front of any
remainder. -/
theorem queryUnescape_escByte (c : Nat) (hc : c < 256) (rest : ByteStr) :
    queryUnescape (escByte c ++ rest) =
      (queryUnescape rest).map (fun t => c :: t) := by
  by_cases h1 : isUnreservedByte c = true
  · obtain ⟨h37, h43, -, -, -⟩ := isUnreservedByte_ne c h1
    simp only [escByte, h1, if_true, List.cons_append, List.nil_append]
    exact queryUnescape_cons_plain c rest h37 h43
  · by_cases h2 : c = 32
    · subst h2
      simp only [escByte, h1, if_false, if_true, List.cons_append,
        List.nil_append, if_pos rfl]
      exact queryUnescape_cons_plus rest
    · have hdiv : c / 16 < 16 := by omega
      have hmod : c % 16 < 16 := Nat.mod_lt _ (by norm_num)
      have hxy : 16 * (c / 16) + c % 16 = c := Nat.div_add_mod c 16
      have hesc : escByte c = [37, hexDigitUpper (c / 16), hexDigitUpper (c % 16)] := by
        simp [escByte, h1, h2]
      rw [hesc, List.cons_append, List.cons_append, List.cons_append,
        List.nil_append,
        queryUnescape_cons_hex _ _ _ _ rest (hexVal_hexDigitUpper _ hdiv)
          (hexVal_hexDigitUpper _ hmod), hxy]

/-- Helper: unescaping undoes the escape of a whole byte string, in
front of any remainder. -/
theorem queryUnescape_queryEscape_append (s : ByteStr) (hs : bytesOk s = true)
    (rest : ByteStr) :
    queryUnescape (queryEscape s ++ rest) =
      (queryUnescape rest).map (fun t => s ++ t) := by
  induction s with
  | nil =>
    simp [queryEscape]
  | cons c cs ih =>
    simp only [bytesOk, List.all_cons, Bool.and_eq_true, decide_eq_true_eq] at hs
    have hcs : bytesOk cs = true := by simp [bytesOk, hs.2]
    have : queryEscape (c :: cs) = escByte c ++ queryEscape cs := by
      simp [queryEscape]
    rw [this, List.append_assoc, queryUnescape_escByte c hs.1, ih hcs,
      Option.map_map]
    rfl

/-- Helper: unescape inverts escape. -/
theorem queryUnescape_queryEscape (s : ByteStr) (hs : bytesOk s = true) :
    queryUnescape (queryEscape s) = some s := by
  have := queryUnescape_queryEscape_append s hs []
  simpa [queryUnescape] using this

/-- Helper: no byte of an escaped string is an ampersand, equals sign
or semicolon. -/
theorem mem_queryEscape_ne (k : ByteStr) (d : Nat) (hd : d ∈ queryEscape k) :
    d ≠ 38 ∧ d ≠ 61 ∧ d ≠ 59 := by
  simp only [queryEscape, List.mem_flatMap] at hd
  obtain ⟨c, -, hc⟩ := hd
  have hh : ∀ n, hexDigitUpper n ≠ 38 ∧ hexDigitUpper n ≠ 61 ∧
      hexDigitUpper n ≠ 59 := by
    intro n
    unfold hexDigitUpper
    split <;> omega
  by_cases h1 : isUnreservedByte c = true
  · simp [escByte, h1] at hc
    subst hc
    obtain ⟨-, -, h38, h61, h59⟩ := isUnreservedByte_ne _ h1
    exact ⟨h38, h61, h59⟩
  · by_cases h2 : c = 32
    · simp [escByte, isUnreservedByte, h1, h2] at hc
      omega
    · simp [escByte, h1, h2] at hc
      rcases hc with h | h | h
      · omega
      · rw [h]; exact hh _
      · rw [h]; exact hh _

/-- Helper: cutting at a byte absent from the string returns the whole
string and an empty remainder. -/
theorem cutByte_of_not_mem (sep : Nat) (s : ByteStr) (h : sep ∉ s) :
    cutByte sep s = (s, []) := by
  induction s with
  | nil => simp [cutByte]
  | cons c cs ih =>
    have hc : c ≠ sep := fun hcs => h (hcs ▸ List.mem_cons_self c cs)
    have hcs : sep ∉ cs := fun hm => h (List.mem_cons_of_mem c hm)
    simp [cutByte, hc, ih hcs]

/-- Helper: cutting at the first occurrence of the separator splits the
string there. -/
theorem cutByte_append (sep : Nat) (a b : ByteStr) (h : sep ∉ a) :
    cutByte sep (a ++ sep :: b) = (a, b) := by
  induction a with
  | nil => simp [cutByte]
  | cons c cs ih =>
    have hc : c ≠ sep := fun hcs => h (hcs ▸ List.mem_cons_self c cs)
    have hcs : sep ∉ cs := fun hm => h (List.mem_cons_of_mem c hm)
    simp [cutByte, hc, ih hcs]

/-- Helper: facts about one encoded key=value unit: it is non-empty and
contains no ampersand and no semicolon, and cutting it at its equals
sign recovers the two escaped halves. -/
theorem encodePair_facts (k v : ByteStr) :
    encodePair k v ≠ [] ∧ (38 ∉ encodePair k v) ∧ (59 ∉ encodePair k v) ∧
      cutByte 61 (encodePair k v) = (queryEscape k, queryEscape v) := by
  refine ⟨?_, ?_, ?_, ?_⟩
  · simp only [encodePair]
    intro h
    have := List.append_eq_nil.mp h
    exact List.cons_ne_nil _ _ this.2
  · intro hm
    simp only [encodePair, List.mem_append, List.mem_cons] at hm
    rcases hm with h | h | h
    · exact (mem_queryEscape_ne k 38 h).1 rfl
    · omega
    · exact (mem_queryEscape_ne v 38 h).1 rfl
  · intro hm
    simp only [encodePair, List.mem_append, List.mem_cons] at hm
    rcases hm with h | h | h
    · exact (mem_queryEscape_ne k 59 h).2.2 rfl
    · omega
    · exact (mem_queryEscape_ne v 59 h).2.2 rfl
  · have h61 : (61 : Nat) ∉ queryEscape k := fun hm =>
      (mem_queryEscape_ne k 61 hm).2.1 rfl
    exact cutByte_append 61 (queryEscape k) (queryEscape v) h61

/-- Helper: parsing one encoded unit followed by an ampersand and a
remainder parses the unit and recurses on the remainder. -/
theorem parseQuery_encodePair_cons (k v : ByteStr) (hk : bytesOk k = true)
    (hv : bytesOk v = true) (rest : ByteStr) :
    parseQuery (encodePair k v ++ 38 :: rest) =
      (parseQuery rest).map (fun t => (k, v) :: t) := by
  obtain ⟨hne, h38, h59, hcut⟩ := encodePair_facts k v
  obtain ⟨c, s, hs⟩ : ∃ c s, encodePair k v = c :: s := by
    cases h : encodePair k v with
    | nil => exact absurd h hne
    | cons c s => exact ⟨c, s, rfl⟩
  rw [hs] at h38 h59 hcut
  have hsplit : cutByte 38 ((c :: s) ++ 38 :: rest) = (c :: s, rest) :=
    cutByte_append 38 (c :: s) rest h38
  rw [hs, List.cons_append, parseQuery]
  simp only [← List.cons_append, hsplit, h59, if_false, hcut,
    queryUnescape_queryEscape k hk, queryUnescape_queryEscape v hv]
  simp

/-- Helper: parsing a single encoded unit yields its pair. -/
theorem parseQuery_encodePair_last (k v : ByteStr) (hk : bytesOk k = true)
    (hv : bytesOk v = true) :
    parseQuery (encodePair k v) = some [(k, v)] := by
  obtain ⟨hne, h38, h59, hcut⟩ := encodePair_facts k v
  obtain ⟨c, s, hs⟩ : ∃ c s, encodePair k v = c :: s := by
    cases h : encodePair k v with
    | nil => exact absurd h hne
    | cons c s => exact ⟨c, s, rfl⟩
  rw [hs] at h38 h59 hcut
  have hsplit : cutByte 38 (c :: s) = (c :: s, []) :=
    cutByte_of_not_mem 38 (c :: s) h38
  have hnil : parseQuery [] = some [] := by rw [parseQuery]
  rw [hs, parseQuery]
  simp only [hsplit, h59, if_false, hcut, queryUnescape_queryEscape k hk,
    queryUnescape_queryEscape v hv]
  simp [hnil]

/-- Helper: parsing the ampersand-joined encoding of a pair list yields
exactly that pair list. -/
theorem parseQuery_joinAmp (ps : List (ByteStr × ByteStr))
    (h : ∀ kv ∈ ps, bytesOk kv.1 = true ∧ bytesOk kv.2 = true) :
    parseQuery (joinAmp (ps.map (fun kv => encodePair kv.1 kv.2))) = some ps := by
  induction ps with
  | nil => simp [joinAmp, parseQuery]
  | cons kv rest ih =>
    obtain ⟨hk, hv⟩ := h kv (List.mem_cons_self kv rest)
    have hrest : ∀ x ∈ rest, bytesOk x.1 = true ∧ bytesOk x.2 = true :=
      fun x hx => h x (List.mem_cons_of_mem kv hx)
    cases rest with
    | nil =>
      simp only [List.map_cons, List.map_nil, joinAmp]
      exact parseQuery_encodePair_last kv.1 kv.2 hk hv
    | cons kv2 rest2 =>
      have hj : joinAmp ((kv :: kv2 :: rest2).map (fun x => encodePair x.1 x.2)) =
          encodePair kv.1 kv.2 ++ 38 ::
            joinAmp ((kv2 :: rest2).map (fun x => encodePair x.1 x.2)) := by
        simp [joinAmp]
      rw [hj, parseQuery_encodePair_cons kv.1 kv.2 hk hv, ih hrest]
      rfl

/-- Helper: the sorted association list is a permutation of the
original, so their flattened pair lists are permutations too. -/
theorem flatPairs_sortValues_perm (vals : Values) :
    (flatPairs (sortValues vals)).Perm (flatPairs vals) := by
  have hperm : (sortValues vals).Perm vals := List.mergeSort_perm vals _
  exact hperm.flatMap_right _

/-- Helper: membership transfer of the byte bound to the flattened,
sorted pair list. -/
theorem flatPairs_sortValues_ok (vals : Values) (h : valsOk vals = true) :
    ∀ kv ∈ flatPairs (sortValues vals),
      bytesOk kv.1 = true ∧ bytesOk kv.2 = true := by
  intro kv hkv
  simp only [flatPairs, List.mem_flatMap, List.mem_map] at hkv
  obtain ⟨e, he, v, hv, hkveq⟩ := hkv
  have hmem : e ∈ vals := (List.mergeSort_perm vals _).mem_iff.mp he
  simp only [valsOk, List.all_eq_true, Bool.and_eq_true] at h
  obtain ⟨hk, hvs⟩ := h e hmem
  subst hkveq
  exact ⟨hk, hvs v hv⟩

/-- C8: for every request built from a non-absent form-parameter
collection whose bytes come from Go strings, the request body is the
URL-encoded collection, and URL-decoding that body yields a pair list
that is a permutation of (contains exactly, with multiplicity) the
supplied key/value pairs. -/
theorem form_body_roundtrip (accessKey goVersion method endpoint path : String)
    (vals : Values) (h : valsOk vals = true) :
    (createRequest accessKey goVersion method endpoint path (some vals)).body =
        some (encodeValues vals) ∧
      ∃ ps, parseQuery (encodeValues vals) = some ps ∧
        ps.Perm (flatPairs vals) := by
  refine ⟨rfl, flatPairs (sortValues vals), ?_, flatPairs_sortValues_perm vals⟩
  exact parseQuery_joinAmp _ (flatPairs_sortValues_ok vals h)

theorem form_body_roundtrip_witness :
    valsOk [([107], [[32, 38], [61]]), ([97], [[98]])] = true ∧
      ((createRequest "k" "go1.8" "POST" RestEndpoint "messages"
          (some [([107], [[32, 38], [61]]), ([97], [[98]])])).body =
        some (encodeValues [([107], [[32, 38], [61]]), ([97], [[98]])]) ∧
      ∃ ps, parseQuery (encodeValues [([107], [[32, 38], [61]]), ([97], [[98]])]) =
          some ps ∧
        ps.Perm (flatPairs [([107], [[32, 38], [61]]), ([97], [[98]])])) :=
  ⟨by decide,
    form_body_roundtrip "k" "go1.8" "POST" RestEndpoint "messages"
      [([107], [[32, 38], [61]]), ([97], [[98]])] (by decide)⟩
